import Mathlib

/-!
Shallow embedding of the SmartFlow news bot pipeline (`bot.py`):
dedup storage (`load_seen`, `make_uid`, `normalize_title`), the relevance
prefilter (`looks_relevant`), the classifier (`ai_classify`), the freshness
filter, ranking (`recency_score` and the per-cycle sort) and the delivery
loop of `fetch_once`.  Machine integers are modeled as `Int`, timestamps as
seconds (UTC) in `Int`, JSON payloads from the inference backend as an
explicit inductive type, and file/network effects as explicit inputs.
-/

namespace Bot

/-- A JSON value as it can appear in the inference backend's parsed response.
Numbers are modeled as integers (`int(float(v))` in the source truncates a
numeric value to an integer); `jother` stands for any non-string, non-numeric,
non-null value and carries its `str()` rendering. -/
inductive JVal where
  | jstr (s : String)
  | jnum (n : Int)
  | jnull
  | jother (repr : String)
deriving DecidableEq

/-- `str.lower()` (ASCII model), computed on the character list. -/
def pyLower (s : String) : String := String.mk (s.data.map Char.toLower)

/-- `str.strip()`: drop whitespace from both ends. -/
def pyTrim (s : String) : String :=
  String.mk (((s.data.dropWhile Char.isWhitespace).reverse.dropWhile Char.isWhitespace).reverse)

/-- The slice `s[:n]`, by characters. -/
def pyTake (s : String) (n : Nat) : String := String.mk (s.data.take n)

/-- Python's substring test `needle in hay`, on character lists. -/
def pyInAux (needle : List Char) : List Char → Bool
  | [] => needle.isEmpty
  | c :: t => needle.isPrefixOf (c :: t) || pyInAux needle t

/-- Python's substring test `needle in hay`. -/
def pyIn (needle hay : String) : Bool := pyInAux needle.data hay.data

/-- `str(v)` for a `JVal`. -/
def jvalToStr : JVal → String
  | .jstr s => s
  | .jnum n => toString n
  | .jnull => "None"
  | .jother r => r

/-- Lookup in the normalized response dict: the source builds
`{str(k).lower(): v for k, v in data.items()}`, so keys are compared after
lowercasing and a later duplicate key overwrites an earlier one (hence the
`reverse`). -/
def dictGet (d : List (String × JVal)) (k : String) : Option JVal :=
  (d.reverse.find? (fun p => pyLower p.1 == k)).map Prod.snd

/-- `(v or "").strip()` on the optional `summary` value.  `none` models the
`AttributeError` raised when a truthy non-string value has no `.strip()`;
falsy values (`None`, `0`, `""`) are replaced by `""` by the `or` first. -/
def pyOrEmptyStrip : Option JVal → Option String
  | none => some ""
  | some (.jstr s) => some (pyTrim s)
  | some .jnull => some ""
  | some (.jnum n) => if n = 0 then some "" else none
  | some (.jother _) => none

/-- `int(float(v))` with a default used when the key is missing or the
conversion raises (the source wraps the conversion in its own `try`). -/
def pyIntFloat (v : Option JVal) (dflt : Int) : Int :=
  match v with
  | some (.jnum n) => n
  | _ => dflt

/-- Python's `str.title()` (ASCII model): an alphabetic character is
uppercased when the previous character is not alphabetic, lowercased
otherwise. -/
def pyTitleAux : List Char → Bool → List Char
  | [], _ => []
  | c :: rest, prevAlpha =>
    (if c.isAlpha then (if prevAlpha then c.toLower else c.toUpper) else c) ::
      pyTitleAux rest c.isAlpha

def pyTitle (s : String) : String := String.mk (pyTitleAux s.toList false)

/-- Result shape of `ai_classify`. -/
structure AIResult where
  summary : String
  sentiment : String
  confidence : Int
  impact : Int
deriving DecidableEq

/-- Outcome of the inference call for one candidate.
`failure` covers every path that raises inside the `try` block of
`ai_classify` (transport error, empty `res.text`, a brace-delimited substring
that still fails `json.loads`, or a parsed JSON value that is not a dict, on
which `.items()` raises).  `response d` is a successfully parsed dict; a
response with no parseable JSON and no braces leaves `data = {}`, i.e.
`response []`. -/
inductive BackendOutcome where
  | failure
  | response (data : List (String × JVal))
deriving DecidableEq

/-- The templated summary `f"Headline suggests near-term move; watch
mega-cap tech — {x[:120]}"`. -/
def fallbackSummary (x : String) : String :=
  "Headline suggests near-term move; watch mega-cap tech — " ++ pyTake x 120

/-- The value returned by the outer `except` handler of `ai_classify`. -/
def aiErrorResult (title : String) : AIResult :=
  { summary := fallbackSummary title, sentiment := "Neutral", confidence := 60, impact := 50 }

/-- `ai_classify(title, source, article_text)` from `bot.py`, with the global
`USE_AI` and the outcome of the Gemini call made explicit.  The `source` and
`article_text` arguments only flow into the prompt, never into the result. -/
def ai_classify (useAI : Bool) (title source article_text : String)
    (backend : BackendOutcome) : AIResult :=
  if !useAI then { summary := "", sentiment := "Neutral", confidence := 60, impact := 50 }
  else
    let headline := pyTrim title
    match backend with
    | .failure => aiErrorResult title
    | .response data =>
      match pyOrEmptyStrip (dictGet data "summary") with
      | none => aiErrorResult title
      | some summary0 =>
        let sentiment0 := pyTitle (jvalToStr ((dictGet data "sentiment").getD (.jstr "Neutral")))
        let confidence := pyIntFloat (dictGet data "confidence") 60
        let impact := pyIntFloat (dictGet data "impact") confidence
        let s := pyLower sentiment0
        let sentiment :=
          if pyIn "bull" s then "Bullish"
          else if pyIn "bear" s then "Bearish"
          else "Neutral"
        let summary :=
          if summary0 = "" ∨ pyLower summary0 ∈ ["bullish", "bearish", "neutral", pyLower headline]
          then fallbackSummary headline else summary0
        { summary := pyTake summary 220, sentiment := sentiment,
          confidence := confidence, impact := impact }

/-- Collapse each maximal run of whitespace into a single space,
modeling `re.sub(r"\s+", " ", t)` (no trimming). -/
def collapseWsAux : List Char → Bool → List Char
  | [], _ => []
  | c :: rest, prevWs =>
    if c.isWhitespace then
      (if prevWs then [] else [' ']) ++ collapseWsAux rest true
    else c :: collapseWsAux rest false

/-- `normalize_title` from `bot.py` (ASCII model of `\w`): strip and
lowercase, replace every character that is not alphanumeric, underscore or
whitespace by a space, then collapse whitespace runs. -/
def normalize_title (t : String) : String :=
  let t1 := pyLower (pyTrim t)
  let t2 := t1.data.map (fun c =>
    if c.isAlphanum || c == '_' || c.isWhitespace then c else ' ')
  String.mk (collapseWsAux t2 false)

/-- The source computes `sha1(normalize_title(title)).hexdigest()`.  The hash
is modeled as the identity on the normalized title: the key is deterministic
and depends only on the normalized title, which is the only property the
pipeline relies on (the spec treats hash collisions as negligible). -/
def make_uid (title : String) : String := normalize_title title

/-- `looks_relevant` from `bot.py`, with the globals `REQUIRE_KEYWORDS` and
`HIGH_IMPACT_TERMS` made explicit. -/
def looks_relevant (requireKeywords : Bool) (terms : List String) (title : String) : Bool :=
  if !requireKeywords then true
  else terms.any (fun k => pyIn k (pyLower title))

/-- State of the persisted `seen.json` file as `load_seen` can encounter it.
`unreadable` covers an unreadable file and a file whose contents fail
`json.load` (both raise inside the `try`). -/
inductive PersistedFile where
  | missing
  | unreadable
  | jsonList (xs : List String)
  | jsonNonList
deriving DecidableEq

/-- `load_seen` from `bot.py`; the returned list represents the Python set
(membership is the only operation the pipeline uses). -/
def load_seen : PersistedFile → List String
  | .missing => []
  | .unreadable => []
  | .jsonList xs => xs.dedup
  | .jsonNonList => []

/-- One feed entry after step 1–2 of `fetch_once`, in iteration order, with
the effects of enrichment and of the inference call made explicit:
`pub` is the resolved publish time (RSS or article HTML) in seconds UTC,
`none` when unknown; `ctx` is the article/summary text passed to the
classifier; `backend` is what the Gemini call would yield for this entry. -/
structure Entry where
  title : String
  source : String
  link : String
  pub : Option Int
  ctx : String
  backend : BackendOutcome
deriving DecidableEq

/-- The configuration globals read by `fetch_once` and its callees.
`rscoreQ` abstracts `recency_score` (the source computes it with
floating-point `math.exp`; the monotonicity the ranking needs is proved
against the real-valued model `recency_score` below). -/
structure Config where
  useAI : Bool
  requireKeywords : Bool
  highImpactTerms : List String
  hideNeutral : Bool
  minConfidence : Int
  maxAgeHours : Int
  maxPostsPerCycle : Int
  rankByImpact : Bool
  impactWeight : ℚ
  recencyWeight : ℚ
  rscoreQ : Int → ℚ

/-- One scored candidate, as appended to `candidates` in `fetch_once`. -/
structure Cand where
  score : ℚ
  uid : String
  entry : Entry
  ai : AIResult
  dt : Int
  minutesAgo : Int
deriving DecidableEq

/-- The freshness filter of `fetch_once`: an unknown publish time resolves to
`now_utc` (via `... or dt_rss or now_utc`), and the entry is skipped when
`now_utc - dt_utc > timedelta(hours=MAX_AGE_HOURS)`. -/
def freshAdmit (now maxAgeHours : Int) (pub : Option Int) : Bool :=
  let dt_utc := pub.getD now
  !(decide (maxAgeHours * 3600 < now - dt_utc))

/-- The body of the candidate-collection loop of `fetch_once` for one entry.
`seen_now` is only populated in the posting loop, which runs after this loop
has finished, so the `uid in seen_now` test here compares against the empty
set. -/
def candidateOf (cfg : Config) (now : Int) (seen : List String) (e : Entry) : Option Cand :=
  let uid := make_uid e.title
  if uid ∈ seen ∨ uid ∈ ([] : List String) then none
  else if !looks_relevant cfg.requireKeywords cfg.highImpactTerms e.title then none
  else if !freshAdmit now cfg.maxAgeHours e.pub then none
  else
    let ai := ai_classify cfg.useAI e.title e.source e.ctx e.backend
    if cfg.hideNeutral = true ∧ ai.sentiment = "Neutral" then none
    else if ai.confidence < cfg.minConfidence then none
    else
      let dt_utc := e.pub.getD now
      let m := Int.fdiv (now - dt_utc) 60
      let score : ℚ :=
        if cfg.rankByImpact then cfg.impactWeight * (ai.impact : ℚ) + cfg.recencyWeight * cfg.rscoreQ m
        else (ai.confidence : ℚ)
      some { score := score, uid := uid, entry := e, ai := ai, dt := dt_utc, minutesAgo := m }

/-- The candidate-collection loop of `fetch_once`. -/
def collectCandidates (cfg : Config) (now : Int) (seen : List String)
    (entries : List Entry) : List Cand :=
  entries.filterMap (candidateOf cfg now seen)

/-- `a` sorts no later than `b` under
`candidates.sort(key=lambda x: (x["score"], x["dt_utc"]), reverse=True)`:
descending lexicographic order on `(score, dt)`. -/
def descLe (a b : Cand) : Prop :=
  b.score < a.score ∨ (a.score = b.score ∧ b.dt ≤ a.dt)

instance : DecidableRel descLe := fun a b => by
  unfold descLe; infer_instance

instance : IsTotal Cand descLe where
  total a b := by
    unfold descLe
    rcases lt_trichotomy a.score b.score with h | h | h
    · exact Or.inr (Or.inl h)
    · rcases le_total a.dt b.dt with hd | hd
      · exact Or.inr (Or.inr ⟨h.symm, hd⟩)
      · exact Or.inl (Or.inr ⟨h, hd⟩)
    · exact Or.inl (Or.inl h)

instance : IsTrans Cand descLe where
  trans a b c hab hbc := by
    unfold descLe at *
    rcases hab with h1 | ⟨h1, d1⟩
    · rcases hbc with h2 | ⟨h2, d2⟩
      · exact Or.inl (h2.trans h1)
      · exact Or.inl (h2 ▸ h1)
    · rcases hbc with h2 | ⟨h2, d2⟩
      · exact Or.inl (h1 ▸ h2)
      · exact Or.inr ⟨h1.trans h2, d2.trans d1⟩

/-- The per-cycle sort: a stable sort descending by `(score, dt_utc)`
(Python's `list.sort` is stable; insertion sort realizes the same stable
arrangement). -/
def rankCandidates (cands : List Cand) : List Cand :=
  List.insertionSort descLe cands

/-- `limit = MAX_POSTS_PER_CYCLE if MAX_POSTS_PER_CYCLE > 0 else len(candidates)`. -/
def cycleLimit (cfg : Config) (cands : List Cand) : Nat :=
  if 0 < cfg.maxPostsPerCycle then cfg.maxPostsPerCycle.toNat else cands.length

/-- `winners = candidates[:limit]` after the sort. -/
def selectWinners (cfg : Config) (cands : List Cand) : List Cand :=
  (rankCandidates cands).take (cycleLimit cfg cands)

/-- `send_message` wraps `requests.get` in `try/except` and returns `None`
on both paths: the outcome of the delivery attempt is invisible to the
caller. -/
def send_message (attemptSucceeds : Bool) : Unit := ()

/-- The posting loop of `fetch_once`: for each winner, `send_message(msg)` is
called (its outcome, supplied by `sendOk`, is discarded) and the winner's uid
is added to `seen_now` unconditionally.  Returns the uids in posting order. -/
def postWinners : List Cand → (Nat → Bool) → Nat → List String
  | [], _, _ => []
  | c :: rest, sendOk, i =>
    let _u : Unit := send_message (sendOk i)
    c.uid :: postWinners rest sendOk (i + 1)

/-- `if seen_now: seen |= seen_now; save_seen(seen)` — the union is modeled
by appending (membership-equivalent to the Python set union; the duplicated
block in the source is idempotent on membership). -/
def cycleNewSeen (seen postedUids : List String) : List String :=
  if postedUids.isEmpty then seen else seen ++ postedUids

/-- One run of `fetch_once`, given the entries produced by steps 1–2 and an
oracle `sendOk` for the success of each Telegram send attempt.  Returns the
list of posted uids (one per delivered message, in order) and the updated
seen set. -/
def fetch_once (cfg : Config) (now : Int) (seen : List String)
    (entries : List Entry) (sendOk : Nat → Bool) : List String × List String :=
  let cands := collectCandidates cfg now seen entries
  let winners := selectWinners cfg cands
  let posted := postWinners winners sendOk 0
  (posted, cycleNewSeen seen posted)

/-- `recency_score` from `bot.py`, over the reals (the source computes with
floating-point arithmetic): age `<= 0` minutes maps to 100, otherwise
`max(0.0, 100.0 * exp(-minutes_old / 120.0))`. -/
noncomputable def recency_score (minutes_old : Int) : ℝ :=
  if minutes_old ≤ 0 then 100 else max 0 (100 * Real.exp (-(minutes_old : ℝ) / 120))

/-- The default-configuration final score
`0.7 * impact + 0.3 * recency_score(minutes_ago)` (defaults
`RANK_BY_IMPACT = true`, `IMPACT_WEIGHT = 0.7`, `RECENCY_WEIGHT = 0.3`). -/
noncomputable def final_score (impact : Int) (minutes_old : Int) : ℝ :=
  0.7 * (impact : ℝ) + 0.3 * recency_score minutes_old

/-- The data of one candidate that the ranking claim is about. -/
structure RankEntry where
  impact : Int
  dt : Int
deriving DecidableEq

/-- `minutes_ago = int((now_utc - dt_utc).total_seconds() // 60)`
(Python `//` is floor division). -/
def minutes_old (now : Int) (e : RankEntry) : Int := Int.fdiv (now - e.dt) 60

/-- The final score of one candidate at time `now`. -/
noncomputable def entryScore (now : Int) (e : RankEntry) : ℝ :=
  final_score e.impact (minutes_old now e)

/-- `a` sorts no later than `b` under the per-cycle sort (descending
lexicographic on `(score, published_at)`), over the real-valued scores. -/
def rankGe (now : Int) (a b : RankEntry) : Prop :=
  entryScore now b < entryScore now a ∨
    (entryScore now a = entryScore now b ∧ b.dt ≤ a.dt)

/-- `a` strictly precedes `b` in every sorted arrangement. -/
def rankGt (now : Int) (a b : RankEntry) : Prop :=
  entryScore now b < entryScore now a ∨
    (entryScore now a = entryScore now b ∧ b.dt < a.dt)

/-! ## Concrete fixtures for closed evaluations -/

/-- A minimal configuration: inference disabled, no keyword requirement,
neutral shown, no confidence floor, 2-hour window, unlimited budget, ranking
by confidence (`RANK_BY_IMPACT` off). -/
def cfgBasic : Config :=
  { useAI := false, requireKeywords := false, highImpactTerms := [],
    hideNeutral := false, minConfidence := 0, maxAgeHours := 2,
    maxPostsPerCycle := 0, rankByImpact := false,
    impactWeight := 7/10, recencyWeight := 3/10, rscoreQ := fun _ => 0 }

/-- `cfgBasic` with a posting budget of 1 and the inference backend enabled. -/
def cfgBudget : Config :=
  { cfgBasic with maxPostsPerCycle := 1, useAI := true }

/-- A fresh entry whose classification falls back (backend failure). -/
def entryFed : Entry :=
  { title := "Fed cuts rates", source := "CNBC", link := "https://a.example/1",
    pub := some 0, ctx := "", backend := .failure }

/-- A second-source entry with the same normalized title as `entryFed`. -/
def entryFedDup : Entry :=
  { title := "Fed, cuts rates", source := "Reuters", link := "https://b.example/2",
    pub := some 0, ctx := "", backend := .failure }

/-- The candidate `collectCandidates cfgBasic 0 [] [entryFed]` produces. -/
def candFed : Cand :=
  { score := 60, uid := "fed cuts rates", entry := entryFed,
    ai := { summary := "", sentiment := "Neutral", confidence := 60, impact := 50 },
    dt := 0, minutesAgo := 0 }

/-- An entry the backend scores with confidence 80. -/
def entryAlpha : Entry :=
  { title := "Alpha rally", source := "CNBC", link := "https://a.example/3",
    pub := some 0, ctx := "", backend := .response [("confidence", JVal.jnum 80)] }

/-- An entry the backend scores with confidence 70. -/
def entryBeta : Entry :=
  { title := "Beta slump", source := "Reuters", link := "https://b.example/4",
    pub := some 0, ctx := "", backend := .response [("confidence", JVal.jnum 70)] }

/-! ## Theorems -/

/-- The posting loop posts every winner's uid, in order, whatever the send
outcomes are: `send_message` swallows its errors and the loop never consults
a result. -/
theorem postWinners_eq_map : ∀ (l : List Cand) (f : Nat → Bool) (i : Nat),
    postWinners l f i = l.map (fun c => c.uid)
  | [], _, _ => rfl
  | c :: r, f, i => by
    simp [postWinners, postWinners_eq_map r f (i + 1)]

/-- C1 (counterexample): with the backend failing, a title containing
"beats estimates, raises guidance" and no bearish keyword is classified
`Neutral`, not `Bullish` — the fallback of `ai_classify` performs no keyword
scan. -/
theorem C1_counterexample :
    (ai_classify true "Apple beats estimates, raises guidance" "Reuters" ""
        BackendOutcome.failure).sentiment = "Neutral" ∧
    (ai_classify true "Apple beats estimates, raises guidance" "Reuters" ""
        BackendOutcome.failure).sentiment ≠ "Bullish" := by
  constructor
  · rfl
  · decide

/-- C1 (amended): when the inference backend is unavailable, disabled, or
returns an unusable response, `ai_classify` does not scan any keyword lists:
it returns the fixed sentiment `Neutral` with confidence 60 (and impact 50),
regardless of the title and context. -/
theorem C1_fallback_is_fixed_neutral :
    (∀ title source ctx, ai_classify true title source ctx .failure =
      { summary := fallbackSummary title, sentiment := "Neutral",
        confidence := 60, impact := 50 }) ∧
    (∀ title source ctx b, ai_classify false title source ctx b =
      { summary := "", sentiment := "Neutral", confidence := 60, impact := 50 }) ∧
    (∀ title source ctx, ai_classify true title source ctx
        (.response [("summary", JVal.jother "object")]) =
      { summary := fallbackSummary title, sentiment := "Neutral",
        confidence := 60, impact := 50 }) := by
  refine ⟨fun title source ctx => rfl, fun title source ctx b => rfl,
    fun title source ctx => rfl⟩

/-- C5: the freshness filter admits a candidate iff its publish time is
unknown or `now - published_at <= max_age`; the boundary cases
`now - max_age - 1s` (rejected), `now - max_age + 1s` (admitted), no
timestamp (admitted) and future timestamps (admitted) behave as claimed. -/
theorem C5_freshness_filter (now maxAgeHours : Int) (pub : Option Int)
    (hm : 0 ≤ maxAgeHours) :
    (freshAdmit now maxAgeHours pub = true ↔
      (pub = none ∨ ∃ p, pub = some p ∧ now - p ≤ maxAgeHours * 3600)) ∧
    freshAdmit now maxAgeHours (some (now - maxAgeHours * 3600 - 1)) = false ∧
    freshAdmit now maxAgeHours (some (now - maxAgeHours * 3600 + 1)) = true ∧
    freshAdmit now maxAgeHours none = true ∧
    (∀ p, now < p → freshAdmit now maxAgeHours (some p) = true) := by
  refine ⟨?_, ?_, ?_, ?_, ?_⟩
  · cases pub with
    | none => simp [freshAdmit]; omega
    | some p => simp [freshAdmit, not_lt]
  · simp [freshAdmit]; omega
  · simp [freshAdmit]; omega
  · simp [freshAdmit]; omega
  · intro p hp; simp [freshAdmit]; omega

/-- C5 (witness): at `now = 0`, `max_age = 2` hours, a future timestamp
(`published_at = 1`) is admitted. -/
theorem C5_freshness_filter_witness :
    0 ≤ (2 : Int) ∧ freshAdmit 0 2 (some 1) = true :=
  ⟨by decide, (C5_freshness_filter 0 2 (some 1) (by decide)).2.2.2.2 1 (by decide)⟩

/-- C7: for every input and every backend outcome — including failures and
malformed responses — `ai_classify` returns (it is a total function) and its
sentiment is exactly one of `Bullish`, `Bearish`, `Neutral`. -/
theorem C7_sentiment_always_enumerated (useAI : Bool) (title source ctx : String)
    (b : BackendOutcome) :
    (ai_classify useAI title source ctx b).sentiment = "Bullish" ∨
    (ai_classify useAI title source ctx b).sentiment = "Bearish" ∨
    (ai_classify useAI title source ctx b).sentiment = "Neutral" := by
  cases useAI with
  | false => right; right; rfl
  | true =>
    cases b with
    | failure => right; right; rfl
    | response d =>
      simp only [ai_classify, Bool.not_true, Bool.false_eq_true, if_false]
      cases pyOrEmptyStrip (dictGet d "summary") with
      | none => right; right; rfl
      | some s0 =>
        simp only []
        split_ifs <;> simp

/-- C8 (counterexample): a backend response carrying `"confidence": 150`
yields a result whose confidence and impact are 150, outside `[0,100]` —
`ai_classify` does not clamp the backend's values. -/
theorem C8_counterexample :
    (ai_classify true "t" "s" "" (.response [("confidence", JVal.jnum 150)])).confidence = 150 ∧
    ¬((ai_classify true "t" "s" "" (.response [("confidence", JVal.jnum 150)])).confidence ≤ 100) ∧
    (ai_classify true "t" "s" "" (.response [("confidence", JVal.jnum 150)])).impact = 150 := by
  refine ⟨rfl, by decide, rfl⟩

/-- C8 (amended): confidence and impact are integers; on the disabled and
failure paths they are the in-range constants 60 and 50, and when the backend
supplies a numeric value it is passed through unclamped — every integer,
also outside `[0,100]`, is attainable (impact defaults to confidence when
absent). -/
theorem C8_confidence_impact_unclamped :
    (∀ title source ctx, (ai_classify true title source ctx .failure).confidence = 60 ∧
      (ai_classify true title source ctx .failure).impact = 50) ∧
    (∀ title source ctx b, (ai_classify false title source ctx b).confidence = 60 ∧
      (ai_classify false title source ctx b).impact = 50) ∧
    (∀ n : Int,
      (ai_classify true "headline" "src" "" (.response [("confidence", JVal.jnum n)])).confidence = n ∧
      (ai_classify true "headline" "src" "" (.response [("confidence", JVal.jnum n)])).impact = n) := by
  refine ⟨fun title source ctx => ⟨rfl, rfl⟩, fun title source ctx b => ⟨rfl, rfl⟩,
    fun n => ⟨rfl, rfl⟩⟩

/-- C9: `load_seen` is total and returns the empty set when the persisted
file is missing, unreadable/corrupt, or does not contain a list. -/
theorem C9_load_seen_fail_open :
    load_seen PersistedFile.missing = [] ∧
    load_seen PersistedFile.unreadable = [] ∧
    load_seen PersistedFile.jsonNonList = [] :=
  ⟨rfl, rfl, rfl⟩

/-- C10: with `REQUIRE_KEYWORDS` unset or false, `looks_relevant` admits
every title; only with the flag enabled does it perform the case-insensitive
substring match against the term set. -/
theorem C10_require_keywords_gate :
    (∀ terms title, looks_relevant false terms title = true) ∧
    (∀ terms title, looks_relevant true terms title = true ↔
      ∃ k ∈ terms, pyIn k (pyLower title) = true) := by
  constructor
  · intro terms title; rfl
  · intro terms title
    simp [looks_relevant, List.any_eq_true]

/-- C2 (counterexample): with every send attempt failing, the winner's key
is still committed to the seen set — the claim that a key is committed only
when delivery succeeds is false. -/
theorem C2_counterexample :
    ((fun _ => false : Nat → Bool) 0 = false) ∧
    make_uid "Fed cuts rates" ∈ (fetch_once cfgBasic 0 [] [entryFed] (fun _ => false)).2 := by
  exact ⟨rfl, by decide⟩

/-- C2 (amended): `fetch_once` is independent of the delivery outcomes —
`send_message` swallows all errors and returns nothing — and every winner's
key is committed whether or not its send succeeded (at-most-once delivery:
a failed send is never retried). -/
theorem C2_commit_ignores_delivery_outcome (cfg : Config) (now : Int)
    (seen : List String) (entries : List Entry) (sendOk sendOk' : Nat → Bool) :
    fetch_once cfg now seen entries sendOk = fetch_once cfg now seen entries sendOk' ∧
    ∀ c ∈ selectWinners cfg (collectCandidates cfg now seen entries),
      c.uid ∈ (fetch_once cfg now seen entries sendOk).2 := by
  constructor
  · simp only [fetch_once, postWinners_eq_map]
  · intro c hc
    simp only [fetch_once, cycleNewSeen, postWinners_eq_map]
    have hmem : c.uid ∈ (selectWinners cfg (collectCandidates cfg now seen entries)).map
        (fun c => c.uid) := List.mem_map_of_mem _ hc
    have hne : ¬((selectWinners cfg (collectCandidates cfg now seen entries)).map
        (fun c => c.uid)).isEmpty = true := by
      intro h
      rw [List.isEmpty_iff] at h
      rw [h] at hmem
      exact absurd hmem (List.not_mem_nil _)
    rw [if_neg hne]
    exact List.mem_append_right _ hmem

/-- C2 (witness for the amended claim): the winner produced by a concrete
cycle has its key in the updated seen set even though every send failed. -/
theorem C2_commit_ignores_delivery_outcome_witness :
    candFed ∈ selectWinners cfgBasic (collectCandidates cfgBasic 0 [] [entryFed]) ∧
    candFed.uid ∈ (fetch_once cfgBasic 0 [] [entryFed] (fun _ => false)).2 :=
  ⟨by decide,
    (C2_commit_ignores_delivery_outcome cfgBasic 0 [] [entryFed]
      (fun _ => false) (fun _ => true)).2 candFed (by decide)⟩

/-- C3 (code bug): two same-cycle entries with the same normalized title are
both delivered — the `uid in seen_now` test of the candidate loop runs while
`seen_now` is still empty, so within one cycle the key is posted twice; only
a key already in the persisted seen set is suppressed (count 0). -/
theorem C3_same_cycle_double_delivery :
    make_uid "Fed cuts rates" = make_uid "Fed, cuts rates" ∧
    ((fetch_once cfgBasic 0 [] [entryFed, entryFedDup] (fun _ => true)).1).count
      (make_uid "Fed cuts rates") = 2 ∧
    ((fetch_once cfgBasic 0 [make_uid "Fed cuts rates"] [entryFed, entryFedDup]
        (fun _ => true)).1).count (make_uid "Fed cuts rates") = 0 := by
  refine ⟨by decide, by decide, by decide⟩

/-- C4: with a positive posting budget `N` smaller than the number `M` of
admissible candidates, exactly `N` messages are posted and the winners
dominate every remaining candidate under the descending `(score, published_at)`
order; with budget `0`/unset every admissible candidate is posted. -/
theorem C4_budget_enforcement (cfg : Config) (now : Int) (seen : List String)
    (entries : List Entry) (sendOk : Nat → Bool) :
    (0 < cfg.maxPostsPerCycle →
      cfg.maxPostsPerCycle.toNat < (collectCandidates cfg now seen entries).length →
      ((fetch_once cfg now seen entries sendOk).1.length = cfg.maxPostsPerCycle.toNat ∧
        ∃ losers,
          List.Perm (collectCandidates cfg now seen entries)
            (selectWinners cfg (collectCandidates cfg now seen entries) ++ losers) ∧
          ∀ w ∈ selectWinners cfg (collectCandidates cfg now seen entries),
            ∀ l ∈ losers, descLe w l)) ∧
    (cfg.maxPostsPerCycle ≤ 0 →
      (selectWinners cfg (collectCandidates cfg now seen entries) =
        rankCandidates (collectCandidates cfg now seen entries) ∧
      (fetch_once cfg now seen entries sendOk).1.length =
        (collectCandidates cfg now seen entries).length)) := by
  have hperm : List.Perm (rankCandidates (collectCandidates cfg now seen entries))
      (collectCandidates cfg now seen entries) :=
    List.perm_insertionSort descLe (collectCandidates cfg now seen entries)
  have hsorted : List.Sorted descLe (rankCandidates (collectCandidates cfg now seen entries)) :=
    List.sorted_insertionSort descLe (collectCandidates cfg now seen entries)
  constructor
  · intro hN hM
    have hlim : cycleLimit cfg (collectCandidates cfg now seen entries) =
        cfg.maxPostsPerCycle.toNat := if_pos hN
    constructor
    · simp only [fetch_once, postWinners_eq_map, List.length_map, selectWinners, hlim,
        List.length_take]
      rw [hperm.length_eq]
      exact min_eq_left (le_of_lt hM)
    · refine ⟨(rankCandidates (collectCandidates cfg now seen entries)).drop
        (cycleLimit cfg (collectCandidates cfg now seen entries)), ?_, ?_⟩
      · exact (List.take_append_drop _ _).symm ▸ hperm.symm
      · have h2 := hsorted
        rw [← List.take_append_drop (cycleLimit cfg (collectCandidates cfg now seen entries))
          (rankCandidates (collectCandidates cfg now seen entries)), List.Sorted,
          List.pairwise_append] at h2
        exact h2.2.2
  · intro hN
    have hlim : cycleLimit cfg (collectCandidates cfg now seen entries) =
        (collectCandidates cfg now seen entries).length := if_neg (not_lt.mpr hN)
    have hw : selectWinners cfg (collectCandidates cfg now seen entries) =
        rankCandidates (collectCandidates cfg now seen entries) := by
      rw [selectWinners, hlim]
      exact List.take_of_length_le (le_of_eq hperm.length_eq)
    refine ⟨hw, ?_⟩
    simp only [fetch_once, postWinners_eq_map, List.length_map, hw]
    exact hperm.length_eq

/-- C4 (witness): a concrete cycle with budget 1 and two admissible
candidates posts exactly one message, and it dominates the loser. -/
theorem C4_budget_enforcement_witness :
    0 < cfgBudget.maxPostsPerCycle ∧
    cfgBudget.maxPostsPerCycle.toNat <
      (collectCandidates cfgBudget 0 [] [entryAlpha, entryBeta]).length ∧
    (((fetch_once cfgBudget 0 [] [entryAlpha, entryBeta] (fun _ => true)).1.length =
        cfgBudget.maxPostsPerCycle.toNat) ∧
      ∃ losers,
        List.Perm (collectCandidates cfgBudget 0 [] [entryAlpha, entryBeta])
          (selectWinners cfgBudget (collectCandidates cfgBudget 0 [] [entryAlpha, entryBeta]) ++
            losers) ∧
        ∀ w ∈ selectWinners cfgBudget (collectCandidates cfgBudget 0 [] [entryAlpha, entryBeta]),
          ∀ l ∈ losers, descLe w l) :=
  ⟨by decide, by decide,
    (C4_budget_enforcement cfgBudget 0 [] [entryAlpha, entryBeta] (fun _ => true)).1
      (by decide) (by decide)⟩

/-- `recency_score` never exceeds 100. -/
theorem recency_score_le_hundred (m : Int) : recency_score m ≤ 100 := by
  unfold recency_score
  split_ifs with h
  · exact le_refl _
  · refine max_le (by norm_num) ?_
    have hm : (0 : ℝ) < m := by exact_mod_cast not_le.mp h
    have he : Real.exp (-(m : ℝ) / 120) ≤ 1 := Real.exp_le_one_iff.mpr (by linarith)
    linarith

/-- `recency_score` is antitone in the age: an older candidate never gets a
higher recency score. -/
theorem recency_score_antitone {m m' : Int} (h : m ≤ m') :
    recency_score m' ≤ recency_score m := by
  by_cases h1 : m' ≤ 0
  · have hm : m ≤ 0 := le_trans h h1
    simp [recency_score, if_pos h1, if_pos hm]
  · by_cases h2 : m ≤ 0
    · have hm : recency_score m = 100 := by simp [recency_score, if_pos h2]
      rw [hm]
      exact recency_score_le_hundred m'
    · simp only [recency_score, if_neg h1, if_neg h2]
      refine max_le_max (le_refl _) ?_
      have hmm : (m : ℝ) ≤ (m' : ℝ) := by exact_mod_cast h
      have he : Real.exp (-(m' : ℝ) / 120) ≤ Real.exp (-(m : ℝ) / 120) :=
        Real.exp_le_exp.mpr (by linarith)
      linarith

/-- At equal recency, the final score is strictly increasing in impact
(the impact weight 0.7 is positive). -/
theorem final_score_lt_of_impact_lt {i i' m : Int} (h : i < i') :
    final_score i m < final_score i' m := by
  unfold final_score
  have hc : (i : ℝ) < (i' : ℝ) := by exact_mod_cast h
  linarith

/-- At equal impact, the final score is antitone in the age. -/
theorem final_score_le_of_age_le {i m m' : Int} (h : m ≤ m') :
    final_score i m' ≤ final_score i m := by
  unfold final_score
  have := recency_score_antitone h
  linarith

/-- Strict precedence in the descending `(score, published_at)` order is
incompatible with the reverse sorted relation. -/
theorem rankGt_not_rankGe {now : Int} {a b : RankEntry} (h : rankGt now a b) :
    ¬rankGe now b a := by
  rcases h with h | ⟨he, hd⟩ <;> rintro (h2 | ⟨he2, hd2⟩)
  · exact absurd h2 (not_lt.mpr (le_of_lt h))
  · exact absurd h (by rw [he2]; exact lt_irrefl _)
  · exact absurd h2 (by rw [he]; exact lt_irrefl _)
  · exact absurd hd (not_lt.mpr hd2)

/-- In a list sorted by the per-cycle comparator (descending lexicographic on
`(score, published_at)`), an element strictly preceding another in that order
occupies a strictly earlier position. -/
theorem sorted_rank_position (now : Int) (l : List RankEntry)
    (hs : l.Pairwise (rankGe now)) (i j : Fin l.length)
    (h : rankGt now (l.get i) (l.get j)) : (i : Nat) < (j : Nat) := by
  rcases lt_trichotomy (i : Nat) (j : Nat) with hij | hij | hij
  · exact hij
  · exfalso
    have hget : l.get i = l.get j := by rw [Fin.ext hij]
    rw [hget] at h
    rcases h with h | ⟨_, h⟩ <;> exact lt_irrefl _ h
  · exfalso
    have hji : j < i := by exact hij
    have hge := List.pairwise_iff_get.mp hs j i hji
    exact rankGt_not_rankGe h hge

/-- C6: ranking is monotone — at equal recency a strictly higher impact never
ranks below, at equal impact a strictly more recent candidate never ranks
below, and equal final scores are ordered with the more recent
`published_at` first. -/
theorem C6_ranking_monotonicity (now : Int) (l : List RankEntry)
    (hs : l.Pairwise (rankGe now)) (i j : Fin l.length) :
    ((minutes_old now (l.get i) = minutes_old now (l.get j) ∧
        (l.get j).impact < (l.get i).impact) → (i : Nat) < (j : Nat)) ∧
    (((l.get i).impact = (l.get j).impact ∧ (l.get j).dt < (l.get i).dt) →
        (i : Nat) < (j : Nat)) ∧
    ((entryScore now (l.get i) = entryScore now (l.get j) ∧
        (l.get j).dt < (l.get i).dt) → (i : Nat) < (j : Nat)) := by
  refine ⟨?_, ?_, ?_⟩
  · rintro ⟨hm, hi⟩
    refine sorted_rank_position now l hs i j (Or.inl ?_)
    unfold entryScore
    rw [show minutes_old now (l.get j) = minutes_old now (l.get i) from hm.symm]
    exact final_score_lt_of_impact_lt hi
  · rintro ⟨hi, hd⟩
    refine sorted_rank_position now l hs i j ?_
    have hmle : minutes_old now (l.get i) ≤ minutes_old now (l.get j) := by
      unfold minutes_old
      rw [Int.fdiv_eq_ediv _ (by norm_num : (0 : Int) ≤ 60),
        Int.fdiv_eq_ediv _ (by norm_num : (0 : Int) ≤ 60)]
      exact Int.ediv_le_ediv (by norm_num) (by omega)
    have hsle : entryScore now (l.get j) ≤ entryScore now (l.get i) := by
      unfold entryScore
      rw [show (l.get j).impact = (l.get i).impact from hi.symm]
      exact final_score_le_of_age_le hmle
    rcases hsle.lt_or_eq with hlt | heq
    · exact Or.inl hlt
    · exact Or.inr ⟨heq.symm, hd⟩
  · rintro ⟨he, hd⟩
    exact sorted_rank_position now l hs i j (Or.inr ⟨he, hd⟩)

/-- C6 (witness): two concrete sorted lists — equal recency with impacts 50
and 40, and equal impact 50 with publish times 0 and -30s — on which the
higher-impact (resp. more recent) candidate ranks first. -/
theorem C6_ranking_monotonicity_witness :
    (([⟨50, 0⟩, ⟨40, 0⟩] : List RankEntry).Pairwise (rankGe 0) ∧ (0 : Nat) < 1) ∧
    (([⟨50, 0⟩, ⟨50, -30⟩] : List RankEntry).Pairwise (rankGe 0) ∧ (0 : Nat) < 1) := by
  have ha : ([⟨50, 0⟩, ⟨40, 0⟩] : List RankEntry).Pairwise (rankGe 0) := by
    refine List.pairwise_cons.mpr ⟨?_, List.pairwise_singleton _ _⟩
    intro b hb
    rw [List.mem_singleton] at hb
    subst hb
    refine Or.inl ?_
    show entryScore 0 ⟨40, 0⟩ < entryScore 0 ⟨50, 0⟩
    have hm : minutes_old 0 (⟨40, 0⟩ : RankEntry) = 0 := by decide
    have hm2 : minutes_old 0 (⟨50, 0⟩ : RankEntry) = 0 := by decide
    unfold entryScore
    rw [hm, hm2]
    unfold final_score recency_score
    norm_num
  have hb : ([⟨50, 0⟩, ⟨50, -30⟩] : List RankEntry).Pairwise (rankGe 0) := by
    refine List.pairwise_cons.mpr ⟨?_, List.pairwise_singleton _ _⟩
    intro b hb
    rw [List.mem_singleton] at hb
    subst hb
    refine Or.inr ⟨?_, by decide⟩
    show entryScore 0 ⟨50, 0⟩ = entryScore 0 ⟨50, -30⟩
    have hm : minutes_old 0 (⟨50, 0⟩ : RankEntry) = 0 := by decide
    have hm2 : minutes_old 0 (⟨50, -30⟩ : RankEntry) = 0 := by decide
    unfold entryScore
    rw [hm, hm2]
  exact ⟨⟨ha, (C6_ranking_monotonicity 0 _ ha ⟨0, by decide⟩ ⟨1, by decide⟩).1
      ⟨by decide, by decide⟩⟩,
    ⟨hb, (C6_ranking_monotonicity 0 _ hb ⟨0, by decide⟩ ⟨1, by decide⟩).2.1
      ⟨by decide, by decide⟩⟩⟩

end Bot
